import Mathlib

/-!
Shallow embedding of the Hevy-to-Notion synchronization engine of this
repository (`src/function/hevy_webhook/notion_handler.py`,
`src/function/hevy_webhook/hevy_webhook.py`,
`src/function/full_sync/full_sync.py`).

Pure Python computations become Lean functions.  The Notion destination is
modelled as explicit state (a list of pages); network non-determinism (the
HTTP outcome of each physical attempt, the outcome of each per-entity upsert
task) is supplied as explicit inputs, so every definition is executable.
-/

namespace WorkoutsToNotion

/-! ### Generic association-list helpers (Python `dict` semantics) -/

/-- Lookup in a string-keyed association list, first match wins
(Python `dict` access on a list built with unique keys). -/
def alistLookup {α : Type} : List (String × α) → String → Option α
  | [], _ => none
  | (k, v) :: rest, key => if k = key then some v else alistLookup rest key

/-- Python `dict` insertion `m[k] = v`: any existing binding of `k` is
replaced.  Modelled extensionally as delete-then-append. -/
def dictInsert (m : List (String × String)) (k v : String) : List (String × String) :=
  m.filter (fun kv => kv.1 != k) ++ [(k, v)]

/-! ### Notion property values

`notion_handler.py` builds page properties as nested JSON dicts.  Each
property is one of a fixed set of shapes; we keep exactly the payload that
distinguishes them. -/

inductive PropValue where
  | title (s : String)
  | richText (s : String)
  | number (q : ℚ)
  | selectName (s : String)
  | multiSelect (names : List String)
  | date (s : String)
  | relation (ids : List String)
  | checkbox (b : Bool)
deriving DecidableEq

/-- A Notion page property set: a dict from property name to value. -/
abbrev Props := List (String × PropValue)

/-- Python truthiness of an optional string obtained by `.get(...)`:
`None` and `""` are falsy. -/
def optTruthy (o : Option String) : Bool := o.getD "" != ""

/-- Python `s[:2000]` (the Notion rich-text length limit). -/
def truncNotion (s : String) : String := s.take 2000

/-- Python `page_id.replace("-", "")`: remove every dash. -/
def stripDashes (s : String) : String := ⟨s.data.filter (fun c => c != '-')⟩

/-! ### Decimal rendering

Python renders the integer indices of the composite set id with `str`,
i.e. standard decimal notation.  `decStr` is that rendering; the fuel
argument makes the recursion structural so the kernel can evaluate it. -/

/-- Little-endian decimal digit characters of `n` (empty for `0`).
`fuel > n` suffices for the recursion to complete. -/
def decCharsAux : ℕ → ℕ → List Char
  | 0, _ => []
  | fuel + 1, n =>
    if n = 0 then [] else Nat.digitChar (n % 10) :: decCharsAux fuel (n / 10)

/-- Decimal rendering of a natural number (Python `str(n)`). -/
def decStr (n : ℕ) : String :=
  if n = 0 then "0" else ⟨(decCharsAux (n + 1) n).reverse⟩

example : decStr 0 = "0" := by decide
example : decStr 7 = "7" := by decide
example : decStr 12345 = "12345" := by decide

/-- Decoder of little-endian decimal digit characters; left inverse of
`decCharsAux`, used to establish that distinct indices render to distinct
strings. -/
def undecChars : List Char → ℕ
  | [] => 0
  | c :: rest => (c.toNat - 48) + 10 * undecChars rest

/-! ### The Remote Request Gateway (`notion_request_with_retry`)

Constants from `notion_handler.py` lines 13-17.  The retry delays are
modelled as integers (seconds); the fixed 0.5s pacing delay before each
physical send is not part of the backoff trace. -/

def NOTION_MAX_RETRIES : ℕ := 5
def NOTION_RETRY_BASE_DELAY : ℤ := 2
def NOTION_MAX_RETRY_DELAY : ℤ := 30

/-- Outcome of one physical HTTP attempt, as seen by the retry loop: either a
response (status, optional parsed `Retry-After` header, JSON body, raw text)
or an `asyncio.TimeoutError`.  The body type is abstract. -/
inductive AttemptResult (β : Type) where
  | response (status : ℕ) (retryAfter : Option ℤ) (body : β) (text : String)
  | timeout

/-- The `(status_code, response_json, error_text)` triple returned by
`notion_request_with_retry`. -/
structure GatewayResult (β : Type) where
  status : ℕ
  body : Option β
  error : Option String
deriving DecidableEq

/-- The retry loop body of `notion_request_with_retry` (lines 72-126), over
the remaining attempt indices.  The three HTTP methods have identical
branches in the source, so one loop models them all.  Returns the result
triple, the list of backoff sleeps performed (in order, seconds), and the
number of physical attempts made. -/
def requestGo {β : Type} (o : ℕ → AttemptResult β) :
    List ℕ → GatewayResult β × List ℤ × ℕ
  | [] => (⟨429, none, some "Rate limited after max retries"⟩, [], 0)
  | a :: rest =>
    match o a with
    | .response s ra b t =>
      if s = 200 then (⟨200, some b, none⟩, [], 1)
      else if s = 429 then
        let headerDelay := ra.getD (NOTION_RETRY_BASE_DELAY * 2 ^ a)
        let r := requestGo o rest
        (r.1, min headerDelay NOTION_MAX_RETRY_DELAY :: r.2.1, r.2.2 + 1)
      else (⟨s, none, some t⟩, [], 1)
    | .timeout =>
      if a + 1 < NOTION_MAX_RETRIES then
        let r := requestGo o rest
        (r.1, NOTION_RETRY_BASE_DELAY * 2 ^ a :: r.2.1, r.2.2 + 1)
      else (⟨0, none, some "Request timeout after retries"⟩, [], 1)

/-- `notion_request_with_retry`: run the loop for attempts `0..4`
(`for attempt in range(NOTION_MAX_RETRIES)`). -/
def notion_request_with_retry {β : Type} (o : ℕ → AttemptResult β) :
    GatewayResult β × List ℤ × ℕ :=
  requestGo o (List.range NOTION_MAX_RETRIES)

/-! ### The destination database and the Identifier Resolver

The Notion side is modelled as explicit state: a list of pages in creation
order.  The three operation shapes the engine uses (query-by-property-filter,
create-page-under-database, patch-page-properties) are modelled by their
documented semantics; the repository functions `find_page_by_hevy_id` and
`create_or_update_page` are the compositions the source builds on top of
them (success path: the claims that use this model condition on all Gateway
calls succeeding). -/

structure NotionPage where
  pageId : String
  props : Props
deriving DecidableEq

abbrev NotionDB := List NotionPage

/-- Property kind used by the resolver filter (`property_type` argument of
`find_page_by_hevy_id`, `"rich_text"` or `"title"`). -/
inductive IdPropKind where
  | richTextKind
  | titleKind
deriving DecidableEq

/-- Does a page match the exact-equality filter `find_page_by_hevy_id`
sends (lines 153-164)? -/
def filterMatches (idProp : String) (kind : IdPropKind) (hevyId : String)
    (p : NotionPage) : Bool :=
  match kind with
  | .richTextKind => alistLookup p.props idProp == some (.richText hevyId)
  | .titleKind => alistLookup p.props idProp == some (.title hevyId)

/-- `find_page_by_hevy_id` (lines 129-178): query the database with the
equality filter and return the first match's page id, `none` on zero
matches. -/
def find_page_by_hevy_id (db : NotionDB) (idProp : String) (kind : IdPropKind)
    (hevyId : String) : Option String :=
  ((db.filter (filterMatches idProp kind hevyId)).map NotionPage.pageId).head?

/-- Notion PATCH semantics: the supplied properties replace pre-existing
ones of the same name, other properties are kept. -/
def mergeProps (old new : Props) : Props :=
  old.filter (fun kv => (alistLookup new kv.1).isNone) ++ new

/-- PATCH an existing page's properties (update branch of
`create_or_update_page`). -/
def patchPage (db : NotionDB) (pid : String) (props : Props) : NotionDB :=
  db.map (fun p => if p.pageId = pid then ⟨p.pageId, mergeProps p.props props⟩ else p)

/-- POST a new page under the database; Notion assigns the fresh page id,
which is a parameter of the model. -/
def createPage (db : NotionDB) (freshId : String) (props : Props) : NotionDB :=
  db ++ [⟨freshId, props⟩]

/-- `create_or_update_page` (lines 181-226): PATCH when a page id was
resolved, POST otherwise; returns the page id from the response. -/
def create_or_update_page (db : NotionDB) (pageId : Option String) (props : Props)
    (freshId : String) : NotionDB × Option String :=
  match pageId with
  | some pid => (patchPage db pid props, some pid)
  | none => (createPage db freshId props, some freshId)

/-- The query-before-write upsert protocol every entity kind uses:
`find_page_by_hevy_id` on the identifier property (always with the default
`"rich_text"` property type) followed by `create_or_update_page`. -/
def upsertByHevyId (db : NotionDB) (idProp hevyId : String) (props : Props)
    (freshId : String) : NotionDB × Option String :=
  create_or_update_page db (find_page_by_hevy_id db idProp .richTextKind hevyId)
    props freshId

/-- Number of destination records whose identifier property equals
`hevyId`. -/
def countMatches (db : NotionDB) (idProp hevyId : String) : ℕ :=
  (db.filter (filterMatches idProp .richTextKind hevyId)).length

/-! ### Source entities

Structures mirror exactly the fields the engine reads off the Hevy JSON
payloads; every field read with `.get` (no default) is an `Option`. -/

/-- A possibly one-level-enveloped payload
(`template.get("exercise_template", template)` etc.). -/
inductive Enveloped (α : Type) where
  | wrapped (a : α)
  | flat (a : α)
deriving DecidableEq

def Enveloped.unwrap {α : Type} : Enveloped α → α
  | .wrapped a => a
  | .flat a => a

structure TemplateData where
  id : Option String
deriving DecidableEq

structure RoutineData where
  id : Option String
deriving DecidableEq

structure SetData where
  set_type : Option String
  weight_kg : Option ℚ
  reps : Option ℤ
  distance_meters : Option ℚ
  duration_seconds : Option ℤ
  rpe : Option ℚ
deriving DecidableEq

structure ExerciseData where
  title : Option String
  exercise_template_id : Option String
  superset_id : Option ℤ
  notes : Option String
  sets : List SetData
deriving DecidableEq

structure WorkoutData where
  id : Option String
  title : Option String
  description : Option String
  start_time : Option String
  end_time : Option String
  created_at : Option String
  routine_id : Option String
  exercises : List ExerciseData
deriving DecidableEq

/-! ### Entity Upsert Operations: property builders -/

/-- Conditional property emission: a key is only present when the source
value is (`if x is not None: properties[key] = ...` in the source). -/
def optSeg (key : String) (o : Option PropValue) : Props :=
  match o with
  | some v => [(key, v)]
  | none => []

/-- Conversion factor `2.20462` (kg to lb), as an exact rational. -/
def KG_TO_LB : ℚ := 220462 / 100000

/-- Python `round(x, 2)` on the exact rational value. -/
def round2 (q : ℚ) : ℚ := (round (q * 100) : ℚ) / 100

/-- Property set built by `upsert_workout` (lines 477-529).  `now` stands for
`datetime.utcnow().isoformat()`. -/
def buildWorkoutProperties (wd : WorkoutData) (routine_page_id : Option String)
    (now : String) : Props :=
  [("Name", .title (wd.title.getD "Workout")),
   ("Hevy ID", .richText (wd.id.getD "")),
   ("Exercise Count", .number (wd.exercises.length : ℚ)),
   ("Total Sets", .number ((wd.exercises.map (fun ex => ex.sets.length)).sum : ℚ)),
   ("Last Synced", .date now)]
  ++ (if optTruthy wd.description then
        [("Description", PropValue.richText (truncNotion (wd.description.getD "")))]
      else [])
  ++ (if optTruthy wd.start_time then
        [("Start Time", PropValue.date (wd.start_time.getD ""))] else [])
  ++ (if optTruthy wd.end_time then
        [("End Time", PropValue.date (wd.end_time.getD ""))] else [])
  ++ (if optTruthy wd.created_at then
        [("Created", PropValue.date (wd.created_at.getD ""))] else [])
  ++ (if optTruthy routine_page_id then
        [("Routine", PropValue.relation [stripDashes (routine_page_id.getD "")])]
      else [])

/-- `upsert_workout` (lines 456-541) over the destination state: unwrap,
build properties, resolve by Hevy ID, create-or-update. -/
def upsert_workout (db : NotionDB) (freshId : String)
    (workout : Enveloped WorkoutData) (routine_page_id : Option String)
    (now : String) : NotionDB × Option String :=
  let wd := workout.unwrap
  upsertByHevyId db "Hevy ID" (wd.id.getD "")
    (buildWorkoutProperties wd routine_page_id now) freshId

/-- Composite set identifier
`f"{workout_id}-{exercise_index}-{set_index}"` (line 579). -/
def compositeSetId (workout_id : String) (exercise_index set_index : ℕ) : String :=
  workout_id ++ "-" ++ decStr exercise_index ++ "-" ++ decStr set_index

/-- Property set built by `upsert_set` (lines 579-651). -/
def buildSetProperties (workout_id workout_page_id : String)
    (exercise : ExerciseData) (exercise_index : ℕ) (set_data : SetData)
    (set_index : ℕ) (exercise_template_page_id : Option String)
    (now : String) : Props :=
  [("Exercise Name", .title (exercise.title.getD "Unknown Exercise")),
   ("Hevy ID", .richText (compositeSetId workout_id exercise_index set_index)),
   ("Exercise Order", .number ((exercise_index : ℚ) + 1)),
   ("Set Number", .number ((set_index : ℚ) + 1)),
   ("Set Type", .selectName (set_data.set_type.getD "normal")),
   ("Last Synced", .date now)]
  ++ (if workout_page_id != "" then
        [("Workout", PropValue.relation [stripDashes workout_page_id])] else [])
  ++ (if optTruthy exercise_template_page_id then
        [("Exercise", PropValue.relation
           [stripDashes (exercise_template_page_id.getD "")])]
      else [])
  ++ optSeg "Weight (lb)"
       (set_data.weight_kg.map (fun w => PropValue.number (round2 (w * KG_TO_LB))))
  ++ optSeg "Reps" (set_data.reps.map (fun r => PropValue.number (r : ℚ)))
  ++ optSeg "Distance (m)"
       (set_data.distance_meters.map (fun d => PropValue.number d))
  ++ optSeg "Duration (s)"
       (set_data.duration_seconds.map (fun d => PropValue.number (d : ℚ)))
  ++ optSeg "RPE" (set_data.rpe.map (fun r => PropValue.number r))
  ++ optSeg "Superset ID"
       (exercise.superset_id.map (fun s => PropValue.number (s : ℚ)))
  ++ (if optTruthy exercise.notes then
        [("Notes", PropValue.richText (truncNotion (exercise.notes.getD "")))]
      else [])

/-- `upsert_set` (lines 548-660) over the destination state: resolve by the
composite set id on the `"Hevy ID"` property, then create-or-update. -/
def upsert_set (db : NotionDB) (freshId : String)
    (workout_id workout_page_id : String) (exercise : ExerciseData)
    (exercise_index : ℕ) (set_data : SetData) (set_index : ℕ)
    (exercise_template_page_id : Option String) (now : String) :
    NotionDB × Option String :=
  upsertByHevyId db "Hevy ID" (compositeSetId workout_id exercise_index set_index)
    (buildSetProperties workout_id workout_page_id exercise exercise_index
      set_data set_index exercise_template_page_id now) freshId

/-! ### Batch Fan-out

`asyncio.gather(*tasks, return_exceptions=True)` yields, per entity, either
a raised exception, `None`, or a page id.  The network is abstracted by
supplying those outcomes as inputs. -/

/-- Outcome of one awaited upsert task: a raised exception (with message),
or its return value (`None` / a page id). -/
abbrev UpsertOutcome := Except String (Option String)

/-- Is the outcome a success (non-exception, non-`None` result)? -/
def isUpsertSuccess : UpsertOutcome → Bool
  | .ok (some _) => true
  | _ => false

/-- The loop body shared by `sync_exercise_templates` (lines 325-332) and
`sync_routines` (lines 439-446): exceptions and `None` results are skipped,
successes are counted and recorded in the id mapping. -/
def gatherStep (acc : ℕ × List (String × String)) (hevyId : String)
    (r : UpsertOutcome) : ℕ × List (String × String) :=
  match r with
  | .error _ => acc
  | .ok none => acc
  | .ok (some pid) => (acc.1 + 1, dictInsert acc.2 hevyId pid)

/-- Left fold of `gatherStep` over the (source id, outcome) pairs, in batch
order. -/
def gatherCollect : ℕ × List (String × String) → List (String × UpsertOutcome) →
    ℕ × List (String × String)
  | acc, [] => acc
  | acc, (h, r) :: rest => gatherCollect (gatherStep acc h r) rest

/-- Source id extraction for a template:
`t.get("exercise_template", t).get("id", "")` (line 330). -/
def templateHevyId (t : Enveloped TemplateData) : String := t.unwrap.id.getD ""

/-- Source id extraction for a routine:
`r.get("routine", r).get("id", "")` (line 444). -/
def routineHevyId (r : Enveloped RoutineData) : String := r.unwrap.id.getD ""

/-- `sync_exercise_templates` (lines 304-339): gather all per-template upsert
outcomes, return the success count and the id mapping. -/
def sync_exercise_templates (templates : List (Enveloped TemplateData))
    (results : List UpsertOutcome) : ℕ × List (String × String) :=
  gatherCollect (0, []) ((templates.map templateHevyId).zip results)

/-- `sync_routines` (lines 418-449). -/
def sync_routines (routines : List (Enveloped RoutineData))
    (results : List UpsertOutcome) : ℕ × List (String × String) :=
  gatherCollect (0, []) ((routines.map routineHevyId).zip results)

/-- The (source id, page id) pairs of the successful outcomes, in order. -/
def successPairs : List (String × UpsertOutcome) → List (String × String)
  | [] => []
  | (h, .ok (some pid)) :: rest => (h, pid) :: successPairs rest
  | _ :: rest => successPairs rest

/-! ### Sync Orchestrator -/

/-- Routine page id lookup in `sync_workouts_and_sets` (lines 770-771):
`routine_mapping.get(routine_id) if routine_id else None`. -/
def routinePageIdFor (routine_mapping : List (String × String))
    (routine_id : Option String) : Option String :=
  if optTruthy routine_id then alistLookup routine_mapping (routine_id.getD "")
  else none

/-- `sync_workout_sets` (lines 663-734): gather the per-set upsert task
outcomes of one workout and count the successes (exceptions and `None`
results are logged and skipped). -/
def sync_workout_sets (outcomes : List UpsertOutcome) : ℕ :=
  (outcomes.filter isUpsertSuccess).length

/-- Loop body of `sync_workouts_and_sets` (lines 768-793): workouts are
processed sequentially; `wOutcome i` is the (directly awaited) result of
`upsert_workout` for workout `i` — an exception there propagates;
`setOutcomes i` are the gathered per-set task outcomes of workout `i`. -/
def syncWorkoutsGo (wOutcome : ℕ → Except String (Option String))
    (setOutcomes : ℕ → List UpsertOutcome) :
    ℕ → List (Enveloped WorkoutData) → ℕ × ℕ → Except String (ℕ × ℕ)
  | _, [], acc => .ok acc
  | i, _w :: rest, (wc, sc) =>
    match wOutcome i with
    | .error e => .error e
    | .ok none => syncWorkoutsGo wOutcome setOutcomes (i + 1) rest (wc, sc)
    | .ok (some _pid) =>
      syncWorkoutsGo wOutcome setOutcomes (i + 1) rest
        (wc + 1, sc + sync_workout_sets (setOutcomes i))

/-- `sync_workouts_and_sets` (lines 741-796): returns
`(workout_count, set_count)`; a workout whose upsert returned `None` is
skipped together with its sets. -/
def sync_workouts_and_sets (workouts : List (Enveloped WorkoutData))
    (wOutcome : ℕ → Except String (Option String))
    (setOutcomes : ℕ → List UpsertOutcome) : Except String (ℕ × ℕ) :=
  syncWorkoutsGo wOutcome setOutcomes 0 workouts (0, 0)

/-- Number of workout indices in `[i, i + n)` whose upsert outcome is a
success; reference value for the workout counter of
`sync_workouts_and_sets`. -/
def okSomeCount (wOutcome : ℕ → Except String (Option String)) : ℕ → ℕ → ℕ
  | _, 0 => 0
  | i, n + 1 =>
    (if isUpsertSuccess (wOutcome i) then 1 else 0) + okSomeCount wOutcome (i + 1) n

/-- Total of the per-workout set success counts over the workouts whose own
upsert succeeded; reference value for the set counter of
`sync_workouts_and_sets`. -/
def setSumCount (wOutcome : ℕ → Except String (Option String))
    (setOutcomes : ℕ → List UpsertOutcome) : ℕ → ℕ → ℕ
  | _, 0 => 0
  | i, n + 1 =>
    (if isUpsertSuccess (wOutcome i) then sync_workout_sets (setOutcomes i) else 0)
      + setSumCount wOutcome setOutcomes (i + 1) n

/-- Result JSON of `perform_full_sync` (lines 191-199); `duration_seconds`
and `timestamp` are wall-clock values outside the model. -/
structure FullSyncResult where
  status : String
  exercise_templates : ℕ
  routines : ℕ
  workouts : ℕ
  sets : ℕ
deriving DecidableEq

/-- `perform_full_sync` (`full_sync.py` lines 102-199).  The database-id
environment variables that gate the template and routine stages are the two
Bool flags; the fetched collections and the per-entity upsert outcomes are
inputs.  The function raising (an exception anywhere in the pipeline, e.g. a
directly awaited workout upsert) is the `.error` case, which the HTTP
handler wraps as a `"status": "error"` response. -/
def perform_full_sync (templates_db routines_db : Bool)
    (templates : List (Enveloped TemplateData)) (tOutcomes : List UpsertOutcome)
    (routines : List (Enveloped RoutineData)) (rOutcomes : List UpsertOutcome)
    (workouts : List (Enveloped WorkoutData))
    (wOutcome : ℕ → Except String (Option String))
    (setOutcomes : ℕ → List UpsertOutcome) : Except String FullSyncResult :=
  let tRes := if templates_db then sync_exercise_templates templates tOutcomes
              else (0, [])
  let rRes := if routines_db then sync_routines routines rOutcomes else (0, [])
  match sync_workouts_and_sets workouts wOutcome setOutcomes with
  | .error e => .error e
  | .ok (wc, sc) =>
    .ok { status := "success", exercise_templates := tRes.1, routines := rRes.1,
          workouts := wc, sets := sc }

/-- Result JSON of `process_workout_webhook` (lines 235-246);
`routine_name`, `message` and `timestamp` omitted (display strings /
wall-clock). -/
structure WebhookResult where
  status : String
  webhook_id : String
  workout_id : String
  notion_page_id : String
  routine_page_id : Option String
  exercise_templates_synced : ℕ
  sets_synced : ℕ
deriving DecidableEq

/-- `process_workout_webhook` (`hevy_webhook.py` lines 142-246).  The
single-workout webhook pipeline: fetch (abstracted: `workout_data` /
`routine_data` are the fetch results, `none` meaning absent), upsert the
routine (directly awaited: exceptions propagate), batch-sync the workout's
exercise templates, upsert the workout — a `None` result here raises
`ValueError("Failed to create/update workout in Notion")` (lines 218-219) —
then batch-sync the sets. -/
def process_workout_webhook (workout_id webhook_id : String)
    (routines_db templates_db sets_db : Bool)
    (workout_data : Option WorkoutData) (routine_data : Option RoutineData)
    (routineOutcome : Except String (Option String))
    (templates : List (Enveloped TemplateData)) (tOutcomes : List UpsertOutcome)
    (workoutOutcome : Except String (Option String))
    (setOutcomes : List UpsertOutcome) : Except String WebhookResult :=
  match workout_data with
  | none => .error ("Failed to fetch workout data for ID: " ++ workout_id)
  | some _wd =>
    let routineStep : Except String (Option String) :=
      if routine_data.isSome && routines_db then routineOutcome else .ok none
    match routineStep with
    | .error e => .error e
    | .ok routine_page_id =>
      let tRes := if templates_db then sync_exercise_templates templates tOutcomes
                  else (0, [])
      match workoutOutcome with
      | .error e => .error e
      | .ok none => .error "Failed to create/update workout in Notion"
      | .ok (some workout_page_id) =>
        let set_count := if sets_db then sync_workout_sets setOutcomes else 0
        .ok { status := "success", webhook_id := webhook_id,
              workout_id := workout_id, notion_page_id := workout_page_id,
              routine_page_id := routine_page_id,
              exercise_templates_synced := tRes.1, sets_synced := set_count }

/-! ### Gateway lemmas -/

/-- An attempt the loop retries past: a 429 response, or a timeout that is
not on the last attempt. -/
lemma requestGo_continue {β : Type} (o : ℕ → AttemptResult β) (a : ℕ)
    (rest : List ℕ)
    (hc : (∃ ra b t, o a = .response 429 ra b t)
          ∨ (o a = .timeout ∧ a + 1 < NOTION_MAX_RETRIES)) :
    ∃ d, requestGo o (a :: rest)
      = ((requestGo o rest).1, d :: (requestGo o rest).2.1,
          (requestGo o rest).2.2 + 1) := by
  rcases hc with ⟨ra, b, t, h⟩ | ⟨h, hlt⟩
  · refine ⟨min (ra.getD (NOTION_RETRY_BASE_DELAY * 2 ^ a)) NOTION_MAX_RETRY_DELAY, ?_⟩
    simp [requestGo, h]
  · refine ⟨NOTION_RETRY_BASE_DELAY * 2 ^ a, ?_⟩
    simp [requestGo, h, hlt]

/-- Retried-past attempts only add to the sleep trace and the attempt count;
the eventual result is unchanged. -/
lemma requestGo_skip {β : Type} (o : ℕ → AttemptResult β) :
    ∀ l₁ l₂ : List ℕ,
      (∀ j ∈ l₁, (∃ ra b t, o j = .response 429 ra b t)
                 ∨ (o j = .timeout ∧ j + 1 < NOTION_MAX_RETRIES)) →
      (requestGo o (l₁ ++ l₂)).1 = (requestGo o l₂).1
        ∧ (requestGo o (l₁ ++ l₂)).2.2 = l₁.length + (requestGo o l₂).2.2
  | [], l₂, _ => by simp
  | a :: l₁, l₂, h => by
    obtain ⟨d, hd⟩ := requestGo_continue o a (l₁ ++ l₂)
      (h a (by simp))
    have ih := requestGo_skip o l₁ l₂ (fun j hj => h j (by simp [hj]))
    rw [List.cons_append, hd]
    exact ⟨ih.1, by simp [ih.2]; omega⟩

/-- Claim C3: when every attempt is answered with HTTP 429,
`notion_request_with_retry` makes exactly 5 attempts, returns the terminal
`(429, None, "Rate limited after max retries")` triple, and the backoff
sleep of attempt `a` is the `Retry-After` header value when present, else
`2 * 2 ^ a`, capped at 30 seconds — so no single sleep exceeds 30s. -/
theorem gateway_rate_limited_after_max_retries {β : Type}
    (o : ℕ → AttemptResult β) (ra : ℕ → Option ℤ) (b : ℕ → β) (t : ℕ → String)
    (h : ∀ a, a < NOTION_MAX_RETRIES → o a = .response 429 (ra a) (b a) (t a)) :
    (notion_request_with_retry o).1
        = ⟨429, none, some "Rate limited after max retries"⟩
      ∧ (notion_request_with_retry o).2.2 = 5
      ∧ (notion_request_with_retry o).2.1
          = (List.range 5).map (fun a => min ((ra a).getD (2 * 2 ^ a)) 30)
      ∧ ∀ d ∈ (notion_request_with_retry o).2.1, d ≤ 30 := by
  have h0 := h 0 (by decide)
  have h1 := h 1 (by decide)
  have h2 := h 2 (by decide)
  have h3 := h 3 (by decide)
  have h4 := h 4 (by decide)
  have hrange : List.range NOTION_MAX_RETRIES = [0, 1, 2, 3, 4] := by rfl
  have hcomp : notion_request_with_retry o
      = (⟨429, none, some "Rate limited after max retries"⟩,
         [min ((ra 0).getD (2 * 2 ^ 0)) 30, min ((ra 1).getD (2 * 2 ^ 1)) 30,
          min ((ra 2).getD (2 * 2 ^ 2)) 30, min ((ra 3).getD (2 * 2 ^ 3)) 30,
          min ((ra 4).getD (2 * 2 ^ 4)) 30], 5) := by
    unfold notion_request_with_retry
    rw [hrange]
    simp [requestGo, h0, h1, h2, h3, h4,
      NOTION_RETRY_BASE_DELAY, NOTION_MAX_RETRY_DELAY]
  refine ⟨by rw [hcomp], by rw [hcomp], by rw [hcomp]; rfl, ?_⟩
  rw [hcomp]
  intro d hd
  simp only [List.mem_cons, List.not_mem_nil, or_false] at hd
  rcases hd with rfl | rfl | rfl | rfl | rfl <;> omega

/-- Witness for C3: all five attempts rate-limited with no `Retry-After`
header. -/
theorem gateway_rate_limited_after_max_retries_witness :
    (notion_request_with_retry
        (fun _ => AttemptResult.response 429 none (0 : ℕ) "")).1
        = ⟨429, none, some "Rate limited after max retries"⟩
      ∧ (notion_request_with_retry
          (fun _ => AttemptResult.response 429 none (0 : ℕ) "")).2.2 = 5
      ∧ (notion_request_with_retry
          (fun _ => AttemptResult.response 429 none (0 : ℕ) "")).2.1
          = (List.range 5).map
              (fun a => min (((fun _ => (none : Option ℤ)) a).getD (2 * 2 ^ a)) 30)
      ∧ ∀ d ∈ (notion_request_with_retry
          (fun _ => AttemptResult.response 429 none (0 : ℕ) "")).2.1, d ≤ 30 :=
  gateway_rate_limited_after_max_retries
    (fun _ => AttemptResult.response 429 none (0 : ℕ) "")
    (fun _ => none) (fun _ => 0) (fun _ => "") (fun _ _ => rfl)

/-- Claim C4: a response whose status is neither 200 nor 429 — arriving at
any reachable attempt `k` — is returned immediately as
`(status, None, raw text)`, with exactly `k + 1` attempts made and no
further retry. -/
theorem gateway_non_transient_immediate {β : Type} (o : ℕ → AttemptResult β)
    (k s : ℕ) (ra : Option ℤ) (b : β) (t : String)
    (hk : k < NOTION_MAX_RETRIES)
    (hbefore : ∀ j, j < k →
      (∃ ra' b' t', o j = .response 429 ra' b' t') ∨ o j = .timeout)
    (hs200 : s ≠ 200) (hs429 : s ≠ 429)
    (hout : o k = .response s ra b t) :
    (notion_request_with_retry o).1 = ⟨s, none, some t⟩
      ∧ (notion_request_with_retry o).2.2 = k + 1 := by
  have hsplit : List.range NOTION_MAX_RETRIES
      = List.range' 0 k ++ (k :: List.range' (k + 1) (NOTION_MAX_RETRIES - 1 - k)) := by
    rw [List.range_eq_range']
    have : (k :: List.range' (k + 1) (NOTION_MAX_RETRIES - 1 - k))
        = List.range' k (NOTION_MAX_RETRIES - k) := by
      have hn : NOTION_MAX_RETRIES - k = (NOTION_MAX_RETRIES - 1 - k) + 1 := by
        unfold NOTION_MAX_RETRIES at *
        omega
      rw [hn, List.range'_succ]
    rw [this]
    rw [show List.range' k (NOTION_MAX_RETRIES - k)
        = List.range' (0 + k) (NOTION_MAX_RETRIES - k) by norm_num]
    rw [List.range'_append_1]
    congr 1
    unfold NOTION_MAX_RETRIES at *
    omega
  have hskip := requestGo_skip o (List.range' 0 k)
    (k :: List.range' (k + 1) (NOTION_MAX_RETRIES - 1 - k))
    (by
      intro j hj
      have hjk : j < k := by
        have := List.mem_range'_1.mp hj
        omega
      rcases hbefore j hjk with h429 | htime
      · exact Or.inl h429
      · exact Or.inr ⟨htime, by unfold NOTION_MAX_RETRIES at *; omega⟩)
  have hhead : requestGo o (k :: List.range' (k + 1) (NOTION_MAX_RETRIES - 1 - k))
      = (⟨s, none, some t⟩, [], 1) := by
    simp [requestGo, hout, hs200, hs429]
  unfold notion_request_with_retry
  rw [hsplit]
  refine ⟨by rw [hskip.1, hhead], ?_⟩
  rw [hskip.2, hhead]
  simp

/-- Witness for C4: first attempt 429, second attempt 404 — returned at once
after 2 attempts. -/
theorem gateway_non_transient_immediate_witness :
    (notion_request_with_retry
        (fun j => if j = 0 then AttemptResult.response 429 none (0 : ℕ) ""
                  else AttemptResult.response 404 none 0 "not found")).1
        = ⟨404, none, some "not found"⟩
      ∧ (notion_request_with_retry
          (fun j => if j = 0 then AttemptResult.response 429 none (0 : ℕ) ""
                    else AttemptResult.response 404 none 0 "not found")).2.2
        = 1 + 1 :=
  gateway_non_transient_immediate
    (fun j => if j = 0 then AttemptResult.response 429 none (0 : ℕ) ""
              else AttemptResult.response 404 none 0 "not found")
    1 404 none 0 "not found" (by norm_num [NOTION_MAX_RETRIES])
    (fun j hj => by
      interval_cases j
      exact Or.inl ⟨none, 0, "", rfl⟩)
    (by norm_num) (by norm_num) rfl

/-- Every result of the retry loop, over any attempt list, falls into one of
the four terminal shapes. -/
lemma requestGo_shape {β : Type} (o : ℕ → AttemptResult β) :
    ∀ l : List ℕ,
      (∃ b, (requestGo o l).1 = ⟨200, some b, none⟩)
      ∨ (∃ s t, s ≠ 200 ∧ s ≠ 429 ∧ (requestGo o l).1 = ⟨s, none, some t⟩)
      ∨ (requestGo o l).1 = ⟨0, none, some "Request timeout after retries"⟩
      ∨ (requestGo o l).1 = ⟨429, none, some "Rate limited after max retries"⟩
  | [] => by
    right; right; right
    simp [requestGo]
  | a :: rest => by
    rcases ho : o a with ⟨s, ra, b, t⟩ | _
    · by_cases h200 : s = 200
      · subst h200
        exact Or.inl ⟨b, by simp [requestGo, ho]⟩
      · by_cases h429 : s = 429
        · subst h429
          have ih := requestGo_shape o rest
          have heq : (requestGo o (a :: rest)).1 = (requestGo o rest).1 := by
            simp [requestGo, ho, h200]
          rw [heq]
          exact ih
        · exact Or.inr (Or.inl ⟨s, t, h200, h429, by simp [requestGo, ho, h200, h429]⟩)
    · by_cases hlt : a + 1 < NOTION_MAX_RETRIES
      · have ih := requestGo_shape o rest
        have heq : (requestGo o (a :: rest)).1 = (requestGo o rest).1 := by
          simp [requestGo, ho, hlt]
        rw [heq]
        exact ih
      · exact Or.inr (Or.inr (Or.inl (by simp [requestGo, ho, hlt])))

/-- Claim C10 (amended): every returned triple is in one of the four shapes
— `(200, body, −)`, `(s ∉ {200, 429}, −, raw text)`,
`(0, −, timeout message)`, `(429, −, rate-limit message)`; a 200 always
carries a body and no error, and every non-200 result carries no body and a
present (`some`) — though possibly empty — error string. -/
theorem gateway_result_classification {β : Type} (o : ℕ → AttemptResult β) :
    ((∃ b, (notion_request_with_retry o).1 = ⟨200, some b, none⟩)
      ∨ (∃ s t, s ≠ 200 ∧ s ≠ 429
          ∧ (notion_request_with_retry o).1 = ⟨s, none, some t⟩)
      ∨ (notion_request_with_retry o).1
          = ⟨0, none, some "Request timeout after retries"⟩
      ∨ (notion_request_with_retry o).1
          = ⟨429, none, some "Rate limited after max retries"⟩)
    ∧ ((notion_request_with_retry o).1.status = 200 →
        (notion_request_with_retry o).1.body.isSome
          ∧ (notion_request_with_retry o).1.error = none)
    ∧ ((notion_request_with_retry o).1.status ≠ 200 →
        (notion_request_with_retry o).1.body = none
          ∧ (notion_request_with_retry o).1.error.isSome) := by
  have h : (∃ b, (notion_request_with_retry o).1 = ⟨200, some b, none⟩)
      ∨ (∃ s t, s ≠ 200 ∧ s ≠ 429
          ∧ (notion_request_with_retry o).1 = ⟨s, none, some t⟩)
      ∨ (notion_request_with_retry o).1
          = ⟨0, none, some "Request timeout after retries"⟩
      ∨ (notion_request_with_retry o).1
          = ⟨429, none, some "Rate limited after max retries"⟩ :=
    requestGo_shape o (List.range NOTION_MAX_RETRIES)
  refine ⟨h, ?_, ?_⟩
  · intro h200
    rcases h with ⟨b, hb⟩ | ⟨s, t, hs, _, hst⟩ | ht | hr
    · rw [hb]; exact ⟨rfl, rfl⟩
    · rw [hst] at h200; exact absurd h200 hs
    · rw [ht] at h200; simp at h200
    · rw [hr] at h200; simp at h200
  · intro hne
    rcases h with ⟨b, hb⟩ | ⟨s, t, _, _, hst⟩ | ht | hr
    · rw [hb] at hne; simp at hne
    · rw [hst]; exact ⟨rfl, rfl⟩
    · rw [ht]; exact ⟨rfl, rfl⟩
    · rw [hr]; exact ⟨rfl, rfl⟩

/-- Witness for C10 (amended): a 404 with non-empty text — no body, error
present. -/
theorem gateway_result_classification_witness :
    (notion_request_with_retry
        (fun _ => AttemptResult.response 404 none (0 : ℕ) "e")).1.body = none
      ∧ (notion_request_with_retry
          (fun _ => AttemptResult.response 404 none (0 : ℕ) "e")).1.error.isSome :=
  (gateway_result_classification
    (fun _ => AttemptResult.response 404 none (0 : ℕ) "e")).2.2 (by decide)

/-- Counterexample for C10 as stated: a non-200 response whose raw text is
empty yields the triple `(500, none, some "")` — the error string is
present but empty, refuting the claim that every non-200 result carries a
non-empty error string. -/
theorem gateway_empty_error_text_cex :
    (notion_request_with_retry
        (fun _ => AttemptResult.response 500 none (0 : ℕ) "")).1
        = ⟨500, none, some ""⟩
      ∧ ("" : String).length = 0 := by
  exact ⟨by decide, rfl⟩

/-! ### Association-list lemmas -/

lemma alistLookup_append {α : Type} (l₁ l₂ : List (String × α)) (k : String) :
    alistLookup (l₁ ++ l₂) k = (alistLookup l₁ k).or (alistLookup l₂ k) := by
  induction l₁ with
  | nil => simp [alistLookup]
  | cons kv rest ih =>
    obtain ⟨k', v⟩ := kv
    by_cases hk : k' = k
    · simp [alistLookup, hk]
    · simp [alistLookup, hk, ih]

lemma alistLookup_optSeg_ne (k key : String) (o : Option PropValue)
    (h : ¬k = key) : alistLookup (optSeg k o) key = none := by
  cases o <;> simp [optSeg, alistLookup, h]

lemma alistLookup_optSeg_self (k : String) (o : Option PropValue) :
    alistLookup (optSeg k o) k = o := by
  cases o <;> simp [optSeg, alistLookup]

/-- Claim C9: when `weight_kg` is present, `upsert_set` emits a
`"Weight (lb)"` number property equal to `weight_kg * 2.20462` rounded to 2
decimals (so 100 kg gives 220.46 lb); when absent, the key is not emitted at
all. -/
theorem set_weight_conversion (wid wpid : String) (ex : ExerciseData)
    (ei : ℕ) (sd : SetData) (si : ℕ) (tpl : Option String) (now : String) :
    (∀ w, sd.weight_kg = some w →
      alistLookup (buildSetProperties wid wpid ex ei sd si tpl now) "Weight (lb)"
        = some (.number (round2 (w * KG_TO_LB))))
    ∧ (sd.weight_kg = none →
      alistLookup (buildSetProperties wid wpid ex ei sd si tpl now) "Weight (lb)"
        = none)
    ∧ round2 ((100 : ℚ) * KG_TO_LB) = (220.46 : ℚ) := by
  refine ⟨?_, ?_, ?_⟩
  · intro w hw
    simp [buildSetProperties, hw, alistLookup_append, alistLookup,
      alistLookup_optSeg_ne, alistLookup_optSeg_self,
      apply_ite (fun l => alistLookup l "Weight (lb)")]
  · intro hw
    simp [buildSetProperties, hw, alistLookup_append, alistLookup,
      alistLookup_optSeg_ne, alistLookup_optSeg_self,
      apply_ite (fun l => alistLookup l "Weight (lb)")]
  · rw [round2, round_eq]
    norm_num [KG_TO_LB]

/-- Witness for C9: a set with `weight_kg = 100` gets
`Weight (lb) = 220.46`. -/
theorem set_weight_conversion_witness :
    alistLookup
        (buildSetProperties "w" "p" ⟨none, none, none, none, []⟩ 0
          ⟨none, some 100, none, none, none, none⟩ 0 none "T") "Weight (lb)"
      = some (.number (220.46 : ℚ)) := by
  have h := set_weight_conversion "w" "p" ⟨none, none, none, none, []⟩ 0
    ⟨none, some 100, none, none, none, none⟩ 0 none "T"
  rw [h.1 100 rfl, h.2.2]

/-- Claim C5: a workout whose (truthy) routine id is mapped to a (non-empty)
routine page id gets a `"Routine"` relation referencing exactly that page id
with dashes stripped; with no routine id (absent or empty, i.e. Python
falsy) or no mapping entry, no `"Routine"` key is emitted at all. -/
theorem workout_routine_relation (wd : WorkoutData)
    (mapping : List (String × String)) (now : String) :
    (∀ rid pid, wd.routine_id = some rid → rid ≠ "" →
      alistLookup mapping rid = some pid → pid ≠ "" →
      alistLookup
          (buildWorkoutProperties wd (routinePageIdFor mapping wd.routine_id) now)
          "Routine"
        = some (.relation [stripDashes pid]))
    ∧ ((wd.routine_id = none ∨ wd.routine_id = some ""
        ∨ (∀ rid, wd.routine_id = some rid → alistLookup mapping rid = none)) →
      alistLookup
          (buildWorkoutProperties wd (routinePageIdFor mapping wd.routine_id) now)
          "Routine"
        = none) := by
  constructor
  · intro rid pid h1 h2 h3 h4
    simp [buildWorkoutProperties, routinePageIdFor, h1, h2, h3, h4, optTruthy,
      alistLookup_append, alistLookup,
      apply_ite (fun l => alistLookup l "Routine")]
  · intro hcase
    have hnone : routinePageIdFor mapping wd.routine_id = none
        ∨ routinePageIdFor mapping wd.routine_id = some "" := by
      rcases hcase with h | h | h
      · left; simp [routinePageIdFor, h, optTruthy]
      · left; simp [routinePageIdFor, h, optTruthy]
      · rcases hrid : wd.routine_id with _ | rid
        · left; simp [routinePageIdFor, optTruthy]
        · by_cases hr : rid = ""
          · left; simp [routinePageIdFor, hrid, hr, optTruthy]
          · left; simp [routinePageIdFor, hrid, hr, optTruthy, h rid hrid]
    rcases hnone with h | h <;>
      simp [buildWorkoutProperties, h, optTruthy, alistLookup_append, alistLookup,
        apply_ite (fun l => alistLookup l "Routine")]

/-- Witness for C5: routine id `"r1"` mapped to page `"page-1"`. -/
theorem workout_routine_relation_witness :
    alistLookup
        (buildWorkoutProperties
          ⟨some "w1", none, none, none, none, none, some "r1", []⟩
          (routinePageIdFor [("r1", "page-1")] (some "r1")) "T") "Routine"
      = some (.relation [stripDashes "page-1"]) :=
  (workout_routine_relation
      ⟨some "w1", none, none, none, none, none, some "r1", []⟩
      [("r1", "page-1")] "T").1 "r1" "page-1" rfl (by decide) (by decide)
    (by decide)

/-! ### Batch Fan-out lemmas -/

lemma mem_dictInsert (m : List (String × String)) (k v k' v' : String) :
    (k', v') ∈ dictInsert m k v
      ↔ (k' = k ∧ v' = v) ∨ ((k', v') ∈ m ∧ k' ≠ k) := by
  simp only [dictInsert, List.mem_append, List.mem_filter, List.mem_singleton,
    Prod.mk.injEq, bne_iff_ne, ne_eq]
  tauto

lemma gatherCollect_count :
    ∀ (l : List (String × UpsertOutcome)) (acc : ℕ × List (String × String)),
      (gatherCollect acc l).1 = acc.1 + (successPairs l).length
  | [], acc => by simp [gatherCollect, successPairs]
  | (h, r) :: rest, acc => by
    match r with
    | .error e =>
      have ih := gatherCollect_count rest acc
      simp [gatherCollect, gatherStep, successPairs, ih]
    | .ok none =>
      have ih := gatherCollect_count rest acc
      simp [gatherCollect, gatherStep, successPairs, ih]
    | .ok (some pid) =>
      have ih := gatherCollect_count rest (acc.1 + 1, dictInsert acc.2 h pid)
      simp [gatherCollect, gatherStep, successPairs, ih]
      omega

lemma successPairs_partition :
    ∀ l : List (String × UpsertOutcome),
      (successPairs l).length
        + (l.filter fun p => !isUpsertSuccess p.2).length = l.length
  | [] => by simp [successPairs]
  | (h, r) :: rest => by
    have ih := successPairs_partition rest
    match r with
    | .error e =>
      rw [show successPairs ((h, Except.error e) :: rest) = successPairs rest
            from rfl,
          List.filter_cons_of_pos (by rfl), List.length_cons, List.length_cons]
      omega
    | .ok none =>
      rw [show successPairs ((h, Except.ok none) :: rest) = successPairs rest
            from rfl,
          List.filter_cons_of_pos (by rfl), List.length_cons, List.length_cons]
      omega
    | .ok (some pid) =>
      rw [show successPairs ((h, Except.ok (some pid)) :: rest)
            = (h, pid) :: successPairs rest from rfl,
          List.filter_cons_of_neg (by simp [isUpsertSuccess]),
          List.length_cons, List.length_cons]
      omega

lemma gatherCollect_mem :
    ∀ (l : List (String × UpsertOutcome)) (c : ℕ) (m : List (String × String)),
      ((successPairs l).map Prod.fst).Nodup →
      ∀ k v, (k, v) ∈ (gatherCollect (c, m) l).2
        ↔ ((k, v) ∈ successPairs l
            ∨ ((k, v) ∈ m ∧ k ∉ (successPairs l).map Prod.fst))
  | [], c, m, _, k, v => by simp [gatherCollect, successPairs]
  | (h, r) :: rest, c, m, hnodup, k, v => by
    match r with
    | .error e =>
      have ih := gatherCollect_mem rest c m
        (by simpa [successPairs] using hnodup) k v
      simpa [gatherCollect, gatherStep, successPairs] using ih
    | .ok none =>
      have ih := gatherCollect_mem rest c m
        (by simpa [successPairs] using hnodup) k v
      simpa [gatherCollect, gatherStep, successPairs] using ih
    | .ok (some pid) =>
      have hsp : successPairs ((h, Except.ok (some pid)) :: rest)
          = (h, pid) :: successPairs rest := rfl
      rw [hsp] at hnodup
      rw [List.map_cons, List.nodup_cons] at hnodup
      obtain ⟨hhead, htail⟩ := hnodup
      have ih := gatherCollect_mem rest (c + 1) (dictInsert m h pid) htail k v
      have hstep : gatherCollect (c, m) ((h, Except.ok (some pid)) :: rest)
          = gatherCollect (c + 1, dictInsert m h pid) rest := rfl
      rw [hstep, hsp, ih]
      constructor
      · rintro (hsprest | ⟨hins, hnot⟩)
        · exact Or.inl (List.mem_cons_of_mem _ hsprest)
        · rcases (mem_dictInsert m h pid k v).mp hins with ⟨rfl, rfl⟩ | ⟨hm, hne⟩
          · exact Or.inl (List.mem_cons_self _ _)
          · refine Or.inr ⟨hm, ?_⟩
            rw [List.map_cons]
            intro hc
            rcases List.mem_cons.mp hc with hkh | hmem
            · exact hne hkh
            · exact hnot hmem
      · rintro (hmem | ⟨hm, hnot⟩)
        · rcases List.mem_cons.mp hmem with heq | hsprest
          · obtain ⟨hk, hv⟩ : k = h ∧ v = pid := by simpa using heq
            refine Or.inr
              ⟨(mem_dictInsert m h pid k v).mpr (Or.inl ⟨hk, hv⟩), ?_⟩
            rw [hk]
            exact hhead
          · exact Or.inl hsprest
        · rw [List.map_cons] at hnot
          have hkh : k ≠ h := fun hc => hnot (by rw [hc]; exact List.mem_cons_self _ _)
          have hnm : k ∉ (successPairs rest).map Prod.fst :=
            fun hc => hnot (List.mem_cons_of_mem _ hc)
          exact Or.inr ⟨(mem_dictInsert m h pid k v).mpr (Or.inr ⟨hm, hkh⟩), hnm⟩

/-- Specification of the shared gather-and-collect loop at the initial
accumulator. -/
lemma gatherCollect_spec (ids : List String) (results : List UpsertOutcome)
    (hlen : results.length = ids.length)
    (hnodup : ((successPairs (ids.zip results)).map Prod.fst).Nodup) :
    (gatherCollect (0, []) (ids.zip results)).1
        = (successPairs (ids.zip results)).length
      ∧ (successPairs (ids.zip results)).length
          + ((ids.zip results).filter fun p => !isUpsertSuccess p.2).length
          = ids.length
      ∧ ∀ k v, (k, v) ∈ (gatherCollect (0, []) (ids.zip results)).2
          ↔ (k, v) ∈ successPairs (ids.zip results) := by
  refine ⟨?_, ?_, ?_⟩
  · simpa using gatherCollect_count (ids.zip results) (0, [])
  · have h := successPairs_partition (ids.zip results)
    rwa [List.length_zip, hlen, min_self] at h
  · intro k v
    have h := gatherCollect_mem (ids.zip results) 0 [] hnodup k v
    simpa using h

/-- Claim C2: in a Batch Fan-out over N entities where some per-entity
upserts fail (exception or `None`) and the successes carry pairwise-distinct
source ids, the function returns the number of successes (N minus the number
of failures) and a mapping holding exactly the successful
source-id-to-page-id pairs; a failing entity never disturbs a sibling's
outcome.  Stated for both `sync_exercise_templates` and `sync_routines`. -/
theorem batch_fanout_partial_failure
    (templates : List (Enveloped TemplateData)) (tres : List UpsertOutcome)
    (routines : List (Enveloped RoutineData)) (rres : List UpsertOutcome)
    (htlen : tres.length = templates.length)
    (hrlen : rres.length = routines.length)
    (htn : ((successPairs ((templates.map templateHevyId).zip tres)).map
        Prod.fst).Nodup)
    (hrn : ((successPairs ((routines.map routineHevyId).zip rres)).map
        Prod.fst).Nodup) :
    ((sync_exercise_templates templates tres).1
        = (successPairs ((templates.map templateHevyId).zip tres)).length
      ∧ (successPairs ((templates.map templateHevyId).zip tres)).length
          + (((templates.map templateHevyId).zip tres).filter
              fun p => !isUpsertSuccess p.2).length
          = templates.length
      ∧ ∀ k v, (k, v) ∈ (sync_exercise_templates templates tres).2
          ↔ (k, v) ∈ successPairs ((templates.map templateHevyId).zip tres))
    ∧ ((sync_routines routines rres).1
        = (successPairs ((routines.map routineHevyId).zip rres)).length
      ∧ (successPairs ((routines.map routineHevyId).zip rres)).length
          + (((routines.map routineHevyId).zip rres).filter
              fun p => !isUpsertSuccess p.2).length
          = routines.length
      ∧ ∀ k v, (k, v) ∈ (sync_routines routines rres).2
          ↔ (k, v) ∈ successPairs ((routines.map routineHevyId).zip rres)) := by
  constructor
  · have h := gatherCollect_spec (templates.map templateHevyId) tres
      (by simpa using htlen) htn
    simpa [sync_exercise_templates] using h
  · have h := gatherCollect_spec (routines.map routineHevyId) rres
      (by simpa using hrlen) hrn
    simpa [sync_routines] using h

/-- Witness for C2: 5 templates, one upsert raises — success count 4 and the
mapping holds the failed entity's id only as absent. -/
theorem batch_fanout_partial_failure_witness :
    (sync_exercise_templates
        [Enveloped.flat ⟨some "e1"⟩, Enveloped.flat ⟨some "e2"⟩,
         Enveloped.flat ⟨some "e3"⟩, Enveloped.flat ⟨some "e4"⟩,
         Enveloped.flat ⟨some "e5"⟩]
        [Except.ok (some "p1"), Except.ok (some "p2"), Except.error "boom",
         Except.ok (some "p4"), Except.ok (some "p5")]).1
      = (successPairs
          (([Enveloped.flat (⟨some "e1"⟩ : TemplateData), Enveloped.flat ⟨some "e2"⟩,
             Enveloped.flat ⟨some "e3"⟩, Enveloped.flat ⟨some "e4"⟩,
             Enveloped.flat ⟨some "e5"⟩].map templateHevyId).zip
            [Except.ok (some "p1"), Except.ok (some "p2"), Except.error "boom",
             Except.ok (some "p4"), Except.ok (some "p5")])).length
    ∧ (("e3", "p3") ∈ (sync_exercise_templates
        [Enveloped.flat ⟨some "e1"⟩, Enveloped.flat ⟨some "e2"⟩,
         Enveloped.flat ⟨some "e3"⟩, Enveloped.flat ⟨some "e4"⟩,
         Enveloped.flat ⟨some "e5"⟩]
        [Except.ok (some "p1"), Except.ok (some "p2"), Except.error "boom",
         Except.ok (some "p4"), Except.ok (some "p5")]).2
      ↔ ("e3", "p3") ∈ successPairs
          (([Enveloped.flat (⟨some "e1"⟩ : TemplateData), Enveloped.flat ⟨some "e2"⟩,
             Enveloped.flat ⟨some "e3"⟩, Enveloped.flat ⟨some "e4"⟩,
             Enveloped.flat ⟨some "e5"⟩].map templateHevyId).zip
            [Except.ok (some "p1"), Except.ok (some "p2"), Except.error "boom",
             Except.ok (some "p4"), Except.ok (some "p5")])) := by
  have h := batch_fanout_partial_failure
    [Enveloped.flat ⟨some "e1"⟩, Enveloped.flat ⟨some "e2"⟩,
     Enveloped.flat ⟨some "e3"⟩, Enveloped.flat ⟨some "e4"⟩,
     Enveloped.flat ⟨some "e5"⟩]
    [Except.ok (some "p1"), Except.ok (some "p2"), Except.error "boom",
     Except.ok (some "p4"), Except.ok (some "p5")]
    [] [] rfl rfl (by decide) (by decide)
  exact ⟨h.1.1, h.1.2.2 "e3" "p3"⟩

/-! ### Resolver and upsert-protocol lemmas -/

lemma page_eq_of_pageId_eq {db : NotionDB}
    (hnodup : (db.map NotionPage.pageId).Nodup)
    {q1 q2 : NotionPage} (h1 : q1 ∈ db) (h2 : q2 ∈ db)
    (h : q1.pageId = q2.pageId) : q1 = q2 :=
  List.inj_on_of_nodup_map hnodup h1 h2 h

lemma filter_pageId_eq {db : NotionDB} {x : NotionPage}
    (hnodup : (db.map NotionPage.pageId).Nodup) (hx : x ∈ db) :
    db.filter (fun q => q.pageId == x.pageId) = [x] := by
  induction db with
  | nil => cases hx
  | cons p rest ih =>
    rw [List.map_cons, List.nodup_cons] at hnodup
    rcases List.mem_cons.mp hx with rfl | hxrest
    · rw [List.filter_cons, if_pos (by simp)]
      have hrest : rest.filter (fun q => q.pageId == x.pageId) = [] := by
        rw [List.filter_eq_nil_iff]
        intro q hq
        simp only [beq_iff_eq]
        intro hqk
        exact hnodup.1 (hqk ▸ List.mem_map_of_mem NotionPage.pageId hq)
      rw [hrest]
    · have hp : ¬(p.pageId == x.pageId) = true := by
        simp only [beq_iff_eq]
        intro hpk
        exact hnodup.1 (by rw [hpk]; exact List.mem_map_of_mem _ hxrest)
      rw [List.filter_cons, if_neg hp]
      exact ih hnodup.2 hxrest

lemma find_none_iff {db : NotionDB} {idProp hevyId : String} {kind : IdPropKind} :
    find_page_by_hevy_id db idProp kind hevyId = none
      ↔ db.filter (filterMatches idProp kind hevyId) = [] := by
  rw [find_page_by_hevy_id, List.head?_eq_none_iff, List.map_eq_nil_iff]

lemma filter_eq_singleton_of_find_some {db : NotionDB}
    {idProp hevyId pid : String}
    (hfind : find_page_by_hevy_id db idProp .richTextKind hevyId = some pid)
    (hatmost : countMatches db idProp hevyId ≤ 1) :
    ∃ p0, db.filter (filterMatches idProp .richTextKind hevyId) = [p0]
      ∧ p0.pageId = pid := by
  rw [find_page_by_hevy_id] at hfind
  rcases hl : db.filter (filterMatches idProp .richTextKind hevyId) with _ | ⟨p0, tl⟩
  · rw [hl] at hfind
    simp at hfind
  · rw [hl] at hfind
    simp only [List.map_cons, List.head?_cons, Option.some.injEq] at hfind
    rw [countMatches, hl, List.length_cons] at hatmost
    have htl : tl = [] := List.length_eq_zero.mp (by omega)
    exact ⟨p0, by rw [htl], hfind⟩

lemma alistLookup_mergeProps_of_some {old new : Props} {k : String}
    {v : PropValue} (h : alistLookup new k = some v) :
    alistLookup (mergeProps old new) k = some v := by
  rw [mergeProps, alistLookup_append]
  have hold : alistLookup (old.filter fun kv => (alistLookup new kv.1).isNone) k
      = none := by
    induction old with
    | nil => simp [alistLookup]
    | cons kv rest ih =>
      by_cases hk : (alistLookup new kv.1).isNone
      · rw [List.filter_cons_of_pos (by simpa using hk)]
        have hne : ¬kv.1 = k := by
          intro hc
          rw [hc, h] at hk
          simp at hk
        simpa [alistLookup, hne] using ih
      · rw [List.filter_cons_of_neg (by simpa using hk)]
        exact ih
  rw [hold, h]
  rfl

lemma patchPage_map_pageId (db : NotionDB) (pid : String) (props : Props) :
    (patchPage db pid props).map NotionPage.pageId = db.map NotionPage.pageId := by
  rw [patchPage, List.map_map]
  apply List.map_congr_left
  intro p _
  by_cases hp : p.pageId = pid <;> simp [hp]

/-- After a PATCH through the unique matching page, that page (its properties
merged) is again the unique match. -/
lemma patch_filter (db : NotionDB) (idProp hevyId : String) (props : Props)
    (p0 : NotionPage)
    (hnodup : (db.map NotionPage.pageId).Nodup)
    (hmem : p0 ∈ db)
    (hfilter : db.filter (filterMatches idProp .richTextKind hevyId) = [p0])
    (hprops : alistLookup props idProp = some (.richText hevyId)) :
    (patchPage db p0.pageId props).filter (filterMatches idProp .richTextKind hevyId)
      = [⟨p0.pageId, mergeProps p0.props props⟩] := by
  rw [patchPage, List.filter_map]
  have hcongr : db.filter ((filterMatches idProp .richTextKind hevyId) ∘
      (fun p => if p.pageId = p0.pageId
                then ⟨p.pageId, mergeProps p.props props⟩ else p))
      = db.filter (fun q => q.pageId == p0.pageId) := by
    apply List.filter_congr
    intro q hq
    by_cases hqid : q.pageId = p0.pageId
    · simp only [Function.comp_apply]
      rw [if_pos hqid]
      have hm : filterMatches idProp .richTextKind hevyId
          ⟨q.pageId, mergeProps q.props props⟩ = true := by
        simp [filterMatches, alistLookup_mergeProps_of_some hprops]
      rw [hm]
      simp [hqid]
    · have hnm : filterMatches idProp .richTextKind hevyId q = false := by
        by_contra hc
        have hqf : q ∈ db.filter (filterMatches idProp .richTextKind hevyId) :=
          List.mem_filter.mpr ⟨hq, by simpa using hc⟩
        rw [hfilter, List.mem_singleton] at hqf
        exact hqid (by rw [hqf])
      simp only [Function.comp_apply]
      rw [if_neg hqid, hnm]
      simp [hqid]
  rw [hcongr, filter_pageId_eq hnodup hmem]
  simp

/-- Claim C1: the query-before-write upsert, run twice for the same source
id against a destination holding at most one matching record (with distinct
page ids and a fresh created-page id), leaves exactly one matching record
and returns the same page id both times.  Quantifying over the property set
(required only to store the id under the identifier property) covers every
entity kind. -/
theorem upsert_twice_idempotent (db : NotionDB) (idProp hevyId : String)
    (props : Props) (f1 f2 : String)
    (hnodup : (db.map NotionPage.pageId).Nodup)
    (hfresh : f1 ∉ db.map NotionPage.pageId)
    (hprops : alistLookup props idProp = some (.richText hevyId))
    (hatmost : countMatches db idProp hevyId ≤ 1) :
    countMatches (upsertByHevyId (upsertByHevyId db idProp hevyId props f1).1
        idProp hevyId props f2).1 idProp hevyId = 1
    ∧ (upsertByHevyId db idProp hevyId props f1).2
        = (upsertByHevyId (upsertByHevyId db idProp hevyId props f1).1
            idProp hevyId props f2).2
    ∧ ((upsertByHevyId db idProp hevyId props f1).2).isSome := by
  rcases hfind : find_page_by_hevy_id db idProp .richTextKind hevyId with _ | pid
  · -- no existing record: first call creates, second call patches the new page
    have hfilter_nil : db.filter (filterMatches idProp .richTextKind hevyId) = [] :=
      find_none_iff.mp hfind
    have h1 : upsertByHevyId db idProp hevyId props f1
        = (db ++ [⟨f1, props⟩], some f1) := by
      simp [upsertByHevyId, create_or_update_page, hfind, createPage]
    have hnodup1 : (((db ++ [⟨f1, props⟩]) : NotionDB).map NotionPage.pageId).Nodup := by
      rw [List.map_append]
      refine List.Nodup.append hnodup (by simp) ?_
      intro a ha hb
      simp only [List.map_cons, List.map_nil, List.mem_singleton] at hb
      exact hfresh (hb ▸ ha)
    have hmatch_new : filterMatches idProp .richTextKind hevyId ⟨f1, props⟩ = true := by
      simp [filterMatches, hprops]
    have hfilter1 : ((db ++ [⟨f1, props⟩]) : NotionDB).filter
        (filterMatches idProp .richTextKind hevyId) = [⟨f1, props⟩] := by
      rw [List.filter_append, hfilter_nil]
      simp [hmatch_new]
    have hmem1 : (⟨f1, props⟩ : NotionPage) ∈ (db ++ [⟨f1, props⟩] : NotionDB) := by
      simp
    have hfind1 : find_page_by_hevy_id (db ++ [⟨f1, props⟩]) idProp .richTextKind
        hevyId = some f1 := by
      rw [find_page_by_hevy_id, hfilter1]
      rfl
    have h2 : upsertByHevyId (db ++ [⟨f1, props⟩]) idProp hevyId props f2
        = (patchPage (db ++ [⟨f1, props⟩]) f1 props, some f1) := by
      simp [upsertByHevyId, create_or_update_page, hfind1]
    have hpf := patch_filter (db ++ [⟨f1, props⟩]) idProp hevyId props ⟨f1, props⟩
      hnodup1 hmem1 hfilter1 hprops
    refine ⟨?_, ?_, ?_⟩
    · rw [h1]
      simp only
      rw [h2]
      simp only
      rw [countMatches, hpf]
      rfl
    · rw [h1]
      simp only
      rw [h2]
    · rw [h1]
      rfl
  · -- existing record: both calls patch it
    obtain ⟨p0, hfilter, hpid⟩ := filter_eq_singleton_of_find_some hfind hatmost
    subst hpid
    have hmem : p0 ∈ db := by
      have : p0 ∈ db.filter (filterMatches idProp .richTextKind hevyId) := by
        rw [hfilter]
        exact List.mem_singleton_self p0
      exact (List.mem_filter.mp this).1
    have h1 : upsertByHevyId db idProp hevyId props f1
        = (patchPage db p0.pageId props, some p0.pageId) := by
      simp [upsertByHevyId, create_or_update_page, hfind]
    have hpf := patch_filter db idProp hevyId props p0 hnodup hmem hfilter hprops
    have hnodup1 : ((patchPage db p0.pageId props).map NotionPage.pageId).Nodup := by
      rw [patchPage_map_pageId]
      exact hnodup
    have hmem1 : (⟨p0.pageId, mergeProps p0.props props⟩ : NotionPage)
        ∈ patchPage db p0.pageId props := by
      have : (⟨p0.pageId, mergeProps p0.props props⟩ : NotionPage)
          ∈ (patchPage db p0.pageId props).filter
            (filterMatches idProp .richTextKind hevyId) := by
        rw [hpf]
        exact List.mem_singleton_self _
      exact (List.mem_filter.mp this).1
    have hfind1 : find_page_by_hevy_id (patchPage db p0.pageId props) idProp
        .richTextKind hevyId = some p0.pageId := by
      rw [find_page_by_hevy_id, hpf]
      rfl
    have h2 : upsertByHevyId (patchPage db p0.pageId props) idProp hevyId props f2
        = (patchPage (patchPage db p0.pageId props) p0.pageId props,
           some p0.pageId) := by
      simp [upsertByHevyId, create_or_update_page, hfind1]
    have hpf2 := patch_filter (patchPage db p0.pageId props) idProp hevyId props
      ⟨p0.pageId, mergeProps p0.props props⟩ hnodup1 hmem1 hpf hprops
    refine ⟨?_, ?_, ?_⟩
    · rw [h1]
      simp only
      rw [h2]
      simp only
      rw [countMatches, hpf2]
      rfl
    · rw [h1]
      simp only
      rw [h2]
    · rw [h1]
      rfl

/-- Witness for C1: upserting source id `"w1"` twice into an empty
database. -/
theorem upsert_twice_idempotent_witness :
    countMatches (upsertByHevyId
        (upsertByHevyId [] "Hevy ID" "w1" [("Hevy ID", .richText "w1")] "p1").1
        "Hevy ID" "w1" [("Hevy ID", .richText "w1")] "p2").1 "Hevy ID" "w1" = 1
    ∧ (upsertByHevyId [] "Hevy ID" "w1" [("Hevy ID", .richText "w1")] "p1").2
        = (upsertByHevyId
            (upsertByHevyId [] "Hevy ID" "w1" [("Hevy ID", .richText "w1")] "p1").1
            "Hevy ID" "w1" [("Hevy ID", .richText "w1")] "p2").2
    ∧ ((upsertByHevyId [] "Hevy ID" "w1"
        [("Hevy ID", .richText "w1")] "p1").2).isSome :=
  upsert_twice_idempotent [] "Hevy ID" "w1" [("Hevy ID", .richText "w1")]
    "p1" "p2" (by decide) (by decide) (by decide) (by decide)

/-! ### Composite set id lemmas -/

lemma undec_digitChar : ∀ d < 10, (Nat.digitChar d).toNat - 48 = d := by decide

lemma digitChar_ne_dash : ∀ d < 10, Nat.digitChar d ≠ '-' := by decide

lemma decCharsAux_roundtrip :
    ∀ (fuel n : ℕ), n < fuel → undecChars (decCharsAux fuel n) = n
  | 0, n, h => absurd h (by omega)
  | fuel + 1, n, h => by
    by_cases hn : n = 0
    · simp [decCharsAux, hn, undecChars]
    · rw [decCharsAux, if_neg hn, undecChars]
      have hlt : n / 10 < fuel := by
        have := Nat.div_lt_self (Nat.pos_of_ne_zero hn) (by norm_num : 1 < 10)
        omega
      rw [decCharsAux_roundtrip fuel (n / 10) hlt,
        undec_digitChar (n % 10) (Nat.mod_lt n (by norm_num))]
      omega

lemma decCharsAux_ne_dash :
    ∀ (fuel n : ℕ), ∀ c ∈ decCharsAux fuel n, c ≠ '-'
  | 0, _, c, hc => absurd hc (by simp [decCharsAux])
  | fuel + 1, n, c, hc => by
    by_cases hn : n = 0
    · rw [decCharsAux, if_pos hn] at hc
      exact absurd hc (by simp)
    · rw [decCharsAux, if_neg hn] at hc
      rcases List.mem_cons.mp hc with rfl | hmem
      · exact digitChar_ne_dash (n % 10) (Nat.mod_lt n (by norm_num))
      · exact decCharsAux_ne_dash fuel (n / 10) c hmem

lemma decStr_ne_dash (n : ℕ) : ∀ c ∈ (decStr n).data, c ≠ '-' := by
  intro c hc
  by_cases hn : n = 0
  · rw [decStr, if_pos hn] at hc
    rcases (by simpa using hc : c = '0') with rfl
    decide
  · rw [decStr, if_neg hn] at hc
    have hc' : c ∈ decCharsAux (n + 1) n := List.mem_reverse.mp hc
    exact decCharsAux_ne_dash (n + 1) n c hc'

lemma decStr_inj {m n : ℕ} (h : decStr m = decStr n) : m = n := by
  have hd := congrArg String.data h
  by_cases hm : m = 0 <;> by_cases hn : n = 0
  · rw [hm, hn]
  · rw [decStr, if_pos hm, decStr, if_neg hn] at hd
    have haux : decCharsAux (n + 1) n = ['0'] := by
      have : (decCharsAux (n + 1) n).reverse = ['0'] := hd.symm
      rw [← List.reverse_reverse (decCharsAux (n + 1) n), this]
      rfl
    have := decCharsAux_roundtrip (n + 1) n (by omega)
    rw [haux] at this
    simp [undecChars] at this
    exact absurd this.symm hn
  · rw [decStr, if_neg hm, decStr, if_pos hn] at hd
    have haux : decCharsAux (m + 1) m = ['0'] := by
      have : (decCharsAux (m + 1) m).reverse = ['0'] := hd
      rw [← List.reverse_reverse (decCharsAux (m + 1) m), this]
      rfl
    have := decCharsAux_roundtrip (m + 1) m (by omega)
    rw [haux] at this
    simp [undecChars] at this
    exact absurd this.symm hm
  · rw [decStr, if_neg hm, decStr, if_neg hn] at hd
    have haux : decCharsAux (m + 1) m = decCharsAux (n + 1) n :=
      List.reverse_injective hd
    have h1 := decCharsAux_roundtrip (m + 1) m (by omega)
    have h2 := decCharsAux_roundtrip (n + 1) n (by omega)
    rw [haux, h2] at h1
    exact h1.symm

lemma append_dash_inj :
    ∀ (a b a' b' : List Char), (∀ c ∈ a, c ≠ '-') → (∀ c ∈ a', c ≠ '-') →
      a ++ '-' :: b = a' ++ '-' :: b' → a = a' ∧ b = b'
  | [], b, [], b', _, _, h => by
    simp only [List.nil_append] at h
    exact ⟨rfl, by injection h⟩
  | [], b, c' :: a', b', _, ha', h => by
    simp only [List.nil_append, List.cons_append] at h
    have hc : '-' = c' := by injection h
    exact absurd hc.symm (ha' c' (by simp))
  | c :: a, b, [], b', ha, _, h => by
    simp only [List.nil_append, List.cons_append] at h
    have hc : c = '-' := by injection h
    exact absurd hc (ha c (by simp))
  | c :: a, b, c' :: a', b', ha, ha', h => by
    rw [List.cons_append, List.cons_append] at h
    injection h with h1 h2
    obtain ⟨hA, hB⟩ := append_dash_inj a b a' b'
      (fun x hx => ha x (by simp [hx])) (fun x hx => ha' x (by simp [hx])) h2
    exact ⟨by rw [h1, hA], hB⟩

/-- Distinct (exercise, set) index pairs render to distinct composite set
ids for the same workout. -/
lemma compositeSetId_inj (wid : String) {ei si ei' si' : ℕ}
    (h : compositeSetId wid ei si = compositeSetId wid ei' si') :
    ei = ei' ∧ si = si' := by
  have hd := congrArg String.data h
  simp only [compositeSetId, String.data_append, List.append_assoc] at hd
  have hd' : wid.data ++ ('-' :: ((decStr ei).data ++ '-' :: (decStr si).data))
      = wid.data ++ ('-' :: ((decStr ei').data ++ '-' :: (decStr si').data)) := by
    simpa using hd
  have h1 := List.append_cancel_left hd'
  have h2 : (decStr ei).data ++ '-' :: (decStr si).data
      = (decStr ei').data ++ '-' :: (decStr si').data := by
    injection h1
  obtain ⟨hA, hB⟩ := append_dash_inj _ _ _ _
    (decStr_ne_dash ei) (decStr_ne_dash ei') h2
  exact ⟨decStr_inj (String.ext hA), decStr_inj (String.ext hB)⟩

lemma find_some_mem {db : NotionDB} {idProp hevyId r : String}
    {kind : IdPropKind}
    (h : find_page_by_hevy_id db idProp kind hevyId = some r) :
    ∃ q ∈ db, filterMatches idProp kind hevyId q = true ∧ q.pageId = r := by
  rw [find_page_by_hevy_id] at h
  rcases hl : db.filter (filterMatches idProp kind hevyId) with _ | ⟨p0, tl⟩
  · rw [hl] at h
    simp at h
  · rw [hl] at h
    simp only [List.map_cons, List.head?_cons, Option.some.injEq] at h
    have hp0 : p0 ∈ db.filter (filterMatches idProp kind hevyId) := by
      rw [hl]
      exact List.mem_cons_self _ _
    exact ⟨p0, (List.mem_filter.mp hp0).1, (List.mem_filter.mp hp0).2, h⟩

/-- The resolver maps distinct identifier values to distinct page ids (when
the destination's page ids are themselves distinct). -/
lemma find_distinct_keys {db : NotionDB} {idProp k1 k2 r1 r2 : String}
    (hnodup : (db.map NotionPage.pageId).Nodup) (hne : k1 ≠ k2)
    (h1 : find_page_by_hevy_id db idProp .richTextKind k1 = some r1)
    (h2 : find_page_by_hevy_id db idProp .richTextKind k2 = some r2) :
    r1 ≠ r2 := by
  obtain ⟨q1, hq1, hm1, hid1⟩ := find_some_mem h1
  obtain ⟨q2, hq2, hm2, hid2⟩ := find_some_mem h2
  intro hr
  have hqq : q1 = q2 :=
    page_eq_of_pageId_eq hnodup hq1 hq2 (by rw [hid1, hid2, hr])
  rw [hqq] at hm1
  rw [filterMatches] at hm1 hm2
  simp only [beq_iff_eq] at hm1 hm2
  rw [hm2] at hm1
  have hv : PropValue.richText k2 = PropValue.richText k1 := by injection hm1
  have hk : k2 = k1 := by injection hv
  exact hne hk.symm

/-- Claim C8: `upsert_set` uses the composite id
`{workout_id}-{exercise_index}-{set_index}` (0-based indices) both as the
resolver lookup key and as the stored `"Hevy ID"` property, renders the
display-facing `Exercise Order` / `Set Number` as the indices plus one, and
distinct index pairs give distinct composite ids which the resolver maps to
distinct destination records. -/
theorem set_composite_key (db : NotionDB) (freshId wid wpid : String)
    (ex : ExerciseData) (ei : ℕ) (sd : SetData) (si : ℕ)
    (tpl : Option String) (now : String) :
    alistLookup (buildSetProperties wid wpid ex ei sd si tpl now) "Hevy ID"
        = some (.richText (compositeSetId wid ei si))
    ∧ alistLookup (buildSetProperties wid wpid ex ei sd si tpl now)
          "Exercise Order" = some (.number ((ei : ℚ) + 1))
    ∧ alistLookup (buildSetProperties wid wpid ex ei sd si tpl now)
          "Set Number" = some (.number ((si : ℚ) + 1))
    ∧ upsert_set db freshId wid wpid ex ei sd si tpl now
        = create_or_update_page db
            (find_page_by_hevy_id db "Hevy ID" .richTextKind
              (compositeSetId wid ei si))
            (buildSetProperties wid wpid ex ei sd si tpl now) freshId
    ∧ (∀ ei' si', ¬(ei = ei' ∧ si = si') →
        compositeSetId wid ei si ≠ compositeSetId wid ei' si')
    ∧ (∀ (db' : NotionDB) (ei' si' : ℕ) (r r' : String),
        (db'.map NotionPage.pageId).Nodup → ¬(ei = ei' ∧ si = si') →
        find_page_by_hevy_id db' "Hevy ID" .richTextKind
          (compositeSetId wid ei si) = some r →
        find_page_by_hevy_id db' "Hevy ID" .richTextKind
          (compositeSetId wid ei' si') = some r' →
        r ≠ r') := by
  refine ⟨?_, ?_, ?_, rfl, ?_, ?_⟩
  · simp [buildSetProperties, alistLookup, alistLookup_append]
  · simp [buildSetProperties, alistLookup, alistLookup_append]
  · simp [buildSetProperties, alistLookup, alistLookup_append]
  · intro ei' si' hne hc
    exact hne (compositeSetId_inj wid hc)
  · intro db' ei' si' r r' hnodup hne hf1 hf2
    exact find_distinct_keys hnodup
      (fun hc => hne (compositeSetId_inj wid hc)) hf1 hf2

/-- Witness for C8: sets `(W, 0, 0)` and `(W, 0, 1)` — distinct composite
ids, resolving to the two distinct pages holding them. -/
theorem set_composite_key_witness :
    alistLookup
        (buildSetProperties "W" "wp" ⟨none, none, none, none, []⟩ 0
          ⟨none, none, none, none, none, none⟩ 0 none "T") "Hevy ID"
      = some (.richText (compositeSetId "W" 0 0))
    ∧ compositeSetId "W" 0 0 ≠ compositeSetId "W" 0 1
    ∧ ("P1" : String) ≠ "P2" := by
  have h := set_composite_key [] "f" "W" "wp" ⟨none, none, none, none, []⟩ 0
    ⟨none, none, none, none, none, none⟩ 0 none "T"
  refine ⟨h.1, h.2.2.2.2.1 0 1 (by simp), ?_⟩
  exact h.2.2.2.2.2
    [⟨"P1", [("Hevy ID", .richText (compositeSetId "W" 0 0))]⟩,
     ⟨"P2", [("Hevy ID", .richText (compositeSetId "W" 0 1))]⟩]
    0 1 "P1" "P2" (by decide) (by simp) (by decide) (by decide)

/-! ### Sync Orchestrator lemmas -/

/-- When no workout upsert raises, the sequential workout loop runs to
completion and the counters are exactly the success counts. -/
lemma syncWorkoutsGo_all_ok (wOutcome : ℕ → Except String (Option String))
    (setOutcomes : ℕ → List UpsertOutcome) :
    ∀ (ws : List (Enveloped WorkoutData)) (i wc sc : ℕ),
      (∀ j, j < ws.length → ∃ o, wOutcome (i + j) = .ok o) →
      syncWorkoutsGo wOutcome setOutcomes i ws (wc, sc)
        = .ok (wc + okSomeCount wOutcome i ws.length,
               sc + setSumCount wOutcome setOutcomes i ws.length)
  | [], i, wc, sc, _ => by simp [syncWorkoutsGo, okSomeCount, setSumCount]
  | w :: rest, i, wc, sc, hok => by
    obtain ⟨o, ho⟩ := hok 0 (by simp)
    rw [Nat.add_zero] at ho
    have hrest : ∀ j, j < rest.length → ∃ o, wOutcome (i + 1 + j) = .ok o := by
      intro j hj
      have := hok (j + 1) (by simpa using Nat.succ_lt_succ hj)
      rwa [show i + (j + 1) = i + 1 + j by omega] at this
    have ih := syncWorkoutsGo_all_ok wOutcome setOutcomes rest (i + 1)
    match o, ho with
    | none, ho =>
      rw [syncWorkoutsGo, ho, ih wc sc hrest]
      rw [List.length_cons, okSomeCount, setSumCount, ho]
      simp [isUpsertSuccess]
    | some pid, ho =>
      rw [syncWorkoutsGo, ho,
        ih (wc + 1) (sc + sync_workout_sets (setOutcomes i)) hrest]
      have hcount : okSomeCount wOutcome i (rest.length + 1)
          = 1 + okSomeCount wOutcome (i + 1) rest.length := by
        rw [okSomeCount, ho]
        simp [isUpsertSuccess]
      have hsum : setSumCount wOutcome setOutcomes i (rest.length + 1)
          = sync_workout_sets (setOutcomes i)
            + setSumCount wOutcome setOutcomes (i + 1) rest.length := by
        rw [setSumCount, ho]
        simp [isUpsertSuccess]
      rw [List.length_cons, hcount, hsum]
      refine congrArg Except.ok ?_
      exact Prod.ext (by omega) (by omega)

/-- Claim C7 (amended): (a) in full-sync mode, when no workout upsert raises,
the loop completes and returns the aggregate counts — an upsert returning
`None` only lowers them; (b) in webhook mode, the single workout's upsert
returning `None` is fatal: it raises
`ValueError("Failed to create/update workout in Notion")`; (c) in webhook
mode with a successful workout upsert, template-batch and set-task failures
are absorbed into the counts and the run completes. -/
theorem upsert_failure_nonfatal_except_webhook_workout
    (workouts : List (Enveloped WorkoutData))
    (wOutcome : ℕ → Except String (Option String))
    (setOutcomes : ℕ → List UpsertOutcome)
    (wi wh rp wp : String) (wd : WorkoutData) (rd : RoutineData)
    (templates : List (Enveloped TemplateData)) (tOutcomes : List UpsertOutcome)
    (souts : List UpsertOutcome) :
    ((∀ j, j < workouts.length → ∃ o, wOutcome j = .ok o) →
      sync_workouts_and_sets workouts wOutcome setOutcomes
        = .ok (okSomeCount wOutcome 0 workouts.length,
               setSumCount wOutcome setOutcomes 0 workouts.length))
    ∧ process_workout_webhook wi wh true true true (some wd) (some rd)
        (.ok (some rp)) templates tOutcomes (.ok none) souts
        = .error "Failed to create/update workout in Notion"
    ∧ process_workout_webhook wi wh true true true (some wd) (some rd)
        (.ok (some rp)) templates tOutcomes (.ok (some wp)) souts
        = .ok { status := "success", webhook_id := wh, workout_id := wi,
                notion_page_id := wp, routine_page_id := some rp,
                exercise_templates_synced :=
                  (sync_exercise_templates templates tOutcomes).1,
                sets_synced := sync_workout_sets souts } := by
  refine ⟨?_, ?_, ?_⟩
  · intro hok
    have h := syncWorkoutsGo_all_ok wOutcome setOutcomes workouts 0 0 0
      (by simpa using hok)
    simpa [sync_workouts_and_sets] using h
  · rfl
  · rfl

/-- Counterexample for C7 as stated: in webhook mode a workout upsert that
merely returns `None` (no exception) aborts the run with a hard error
instead of lowering a counter and continuing. -/
theorem webhook_workout_none_fatal_cex :
    process_workout_webhook "w1" "e1" true true true
        (some ⟨some "w1", none, none, none, none, none, none, []⟩)
        (some ⟨some "r1"⟩) (.ok (some "rp")) [] [] (.ok none) []
      = .error "Failed to create/update workout in Notion" := rfl

/-- Witness for C7 (amended): two workouts, the second upsert returns
`None` — the full-sync loop completes with workout count 1. -/
theorem upsert_failure_nonfatal_witness :
    sync_workouts_and_sets
        [Enveloped.flat ⟨some "w1", none, none, none, none, none, none, []⟩,
         Enveloped.flat ⟨some "w2", none, none, none, none, none, none, []⟩]
        (fun j => if j = 0 then .ok (some "wp1") else .ok none)
        (fun _ => [])
      = .ok (okSomeCount (fun j => if j = 0 then .ok (some "wp1") else .ok none) 0 2,
             setSumCount (fun j => if j = 0 then .ok (some "wp1") else .ok none)
               (fun _ => []) 0 2) :=
  (upsert_failure_nonfatal_except_webhook_workout
      [Enveloped.flat ⟨some "w1", none, none, none, none, none, none, []⟩,
       Enveloped.flat ⟨some "w2", none, none, none, none, none, none, []⟩]
      (fun j => if j = 0 then .ok (some "wp1") else .ok none) (fun _ => [])
      "w" "e" "rp" "wp" ⟨none, none, none, none, none, none, none, []⟩
      ⟨none⟩ [] [] []).1
    (fun j hj => by
      have hj2 : j < 2 := by simpa using hj
      interval_cases j
      · exact ⟨some "wp1", rfl⟩
      · exact ⟨none, rfl⟩)

/-- Claim C6 (amended): both sync entry points return a structured result
whose status field on completion is always `"success"` — including runs
where individual records failed, which are visible only through the counts;
`"partial_success"` is never produced (a raised exception surfaces as the
HTTP handler's error response instead). -/
theorem sync_status_always_success
    (templates_db routines_db : Bool)
    (templates : List (Enveloped TemplateData)) (tOutcomes : List UpsertOutcome)
    (routines : List (Enveloped RoutineData)) (rOutcomes : List UpsertOutcome)
    (workouts : List (Enveloped WorkoutData))
    (wOutcome : ℕ → Except String (Option String))
    (setOutcomes : ℕ → List UpsertOutcome)
    (wi wh : String) (rdb tdb sdb : Bool) (wdata : Option WorkoutData)
    (rdata : Option RoutineData) (rout : Except String (Option String))
    (templates2 : List (Enveloped TemplateData)) (tOutcomes2 : List UpsertOutcome)
    (wout : Except String (Option String)) (souts : List UpsertOutcome) :
    (∀ r, perform_full_sync templates_db routines_db templates tOutcomes
        routines rOutcomes workouts wOutcome setOutcomes = .ok r →
      r.status = "success")
    ∧ (∀ r, process_workout_webhook wi wh rdb tdb sdb wdata rdata rout
        templates2 tOutcomes2 wout souts = .ok r →
      r.status = "success") := by
  constructor
  · intro r h
    rw [perform_full_sync] at h
    rcases hs : sync_workouts_and_sets workouts wOutcome setOutcomes
      with e | ⟨wc, sc⟩ <;> rw [hs] at h
    · exact absurd h (by simp)
    · simp only [Except.ok.injEq] at h
      rw [← h]
  · intro r h
    rw [process_workout_webhook.eq_def] at h
    rcases wdata with _ | wd
    · exact absurd h (by simp)
    · simp only at h
      rcases hrs : (if rdata.isSome && rdb then rout else Except.ok none)
        with e | rpid <;> rw [hrs] at h
      · exact absurd h (by simp)
      · rcases wout with e | wres
        · exact absurd h (by simp)
        · rcases wres with _ | wp
          · exact absurd h (by simp)
          · simp only [Except.ok.injEq] at h
            rw [← h]

/-- Witness for C6 (amended): an empty full sync completes with status
`"success"`. -/
theorem sync_status_always_success_witness :
    FullSyncResult.status ⟨"success", 0, 0, 0, 0⟩ = "success" :=
  (sync_status_always_success false false [] [] [] [] []
      (fun _ => .ok none) (fun _ => []) "w" "e" false false false
      (some ⟨none, none, none, none, none, none, none, []⟩) none (.ok none)
      [] [] (.ok (some "wp")) []).1
    ⟨"success", 0, 0, 0, 0⟩ rfl

/-- Counterexample for C6 as stated: a full sync in which one of two
template upserts failed reports the same `"success"` status as the fully
successful run — the status field does not distinguish partial failure, and
`"partial_success"` is never emitted by the sync entry points. -/
theorem full_sync_partial_status_cex :
    perform_full_sync true true
        [Enveloped.flat ⟨some "e1"⟩, Enveloped.flat ⟨some "e2"⟩]
        [Except.ok (some "p1"), Except.error "boom"]
        [] [] [] (fun _ => .ok none) (fun _ => [])
      = .ok ⟨"success", 1, 0, 0, 0⟩
    ∧ perform_full_sync true true
        [Enveloped.flat ⟨some "e1"⟩, Enveloped.flat ⟨some "e2"⟩]
        [Except.ok (some "p1"), Except.ok (some "p2")]
        [] [] [] (fun _ => .ok none) (fun _ => [])
      = .ok ⟨"success", 2, 0, 0, 0⟩ := ⟨rfl, rfl⟩

end WorkoutsToNotion
